import Mathlib

/-!
Verification development for the CDMX air-quality monitor (`src/app.py`).

The Python program scrapes the SINAICA station pages and queries the OpenAQ
REST API, pivots the payloads into one wide row per station, classifies the
pollutant values and merges both sources into a per-station map entry.  The
definitions below are a shallow embedding of the functions of `app.py` that
the verified properties are about; numeric pollutant values are modelled as
rationals and pandas missing values (`NaN` / absent columns) as `Option`.
-/

namespace AirQuality

/-- The three quality tiers produced by the classifiers (`"Buena"`,
`"Regular"`, `"Mala"` in `app.py`); an unknown rating is `Option.none`,
mirroring the `None` the Python functions return on a missing value. -/
inductive Calidad
  | buena
  | regular
  | mala
deriving DecidableEq, Repr, Fintype

/-- The `orden` dictionary of `evaluar_calidad_aire`:
`{"Buena": 1, "Regular": 2, "Mala": 3}`. -/
def orden : Calidad → Nat
  | .buena => 1
  | .regular => 2
  | .mala => 3

/-- `calidad_co` from `app.py`: `None` on a missing value, else the
5.5 / 11 ppm thresholds (lower tier inclusive). -/
def calidad_co (co : Option ℚ) : Option Calidad :=
  match co with
  | none => none
  | some v => if v ≤ 5.5 then some .buena else if v ≤ 11 then some .regular else some .mala

/-- `calidad_o3` from `app.py`: thresholds 0.055 / 0.095 ppm. -/
def calidad_o3 (o3 : Option ℚ) : Option Calidad :=
  match o3 with
  | none => none
  | some v => if v ≤ 0.055 then some .buena else if v ≤ 0.095 then some .regular else some .mala

/-- `calidad_no2` from `app.py`: thresholds 0.10 / 0.21 ppm. -/
def calidad_no2 (no2 : Option ℚ) : Option Calidad :=
  match no2 with
  | none => none
  | some v => if v ≤ 0.10 then some .buena else if v ≤ 0.21 then some .regular else some .mala

/-- `calidad_nox` from `app.py`: thresholds 0.10 / 0.20 ppm. -/
def calidad_nox (nox : Option ℚ) : Option Calidad :=
  match nox with
  | none => none
  | some v => if v ≤ 0.10 then some .buena else if v ≤ 0.20 then some .regular else some .mala

/-- `calidad_no` from `app.py`: thresholds 0.05 / 0.15 ppm. -/
def calidad_no (no : Option ℚ) : Option Calidad :=
  match no with
  | none => none
  | some v => if v ≤ 0.05 then some .buena else if v ≤ 0.15 then some .regular else some .mala

/-- Python's `max(l, key=lambda x: orden[x])` on a non-empty list: the first
element whose `orden` is maximal (later elements replace the accumulator only
when strictly greater). -/
def pyMaxCalidad (l : List Calidad) : Option Calidad :=
  match l with
  | [] => none
  | x :: xs => some (xs.foldl (fun acc y => if orden acc < orden y then y else acc) x)

/-- The inner `calidad_global` of `evaluar_calidad_aire`: drop the `None`
ratings, return `None` when nothing is left, otherwise the worst rating. -/
def calidad_global (cs : List (Option Calidad)) : Option Calidad :=
  pyMaxCalidad (cs.filterMap id)

/-! ### Wide rows (the pivoted dataframes) -/

/-- A `(fecha, hora)` index pair of the pivot.  Dates and hours are modelled
as naturals; the lexicographic order on them matches the sorted pivot index
(ISO date strings sort chronologically). -/
abbrev Key := Nat × Nat

/-- One row of a pivoted wide dataframe: the `(fecha, hora)` index and the
per-pollutant columns.  A column holding pandas `NaN` at this row (a
parameter observed only at another key of the pivot) is a `none` cell. -/
structure WideRow where
  key : Key
  cols : List (String × Option ℚ)
deriving DecidableEq, Repr

/-- A wide dataframe: list of rows (the fetchers return at most one). -/
abbrev Frame := List WideRow

/-- Column membership, `col in df.columns`. -/
def hasCol (w : WideRow) (c : String) : Bool :=
  (w.cols.lookup c).isSome

/-- The cell of column `c` (`none` when the column is absent or `NaN`). -/
def getCell (w : WideRow) (c : String) : Option ℚ :=
  match w.cols.lookup c with
  | some v => v
  | none => none

/-- A classified row: the wide row plus the `calidad_*` columns that
`evaluar_calidad_aire` appends and the `calidad_global` column. -/
structure EvalRow where
  base : WideRow
  cCO : Option Calidad
  cO3 : Option Calidad
  cNO2 : Option Calidad
  cNOx : Option Calidad
  cNO : Option Calidad
  global : Option Calidad
deriving DecidableEq, Repr

/-- The per-row work of `evaluar_calidad_aire`: each `calidad_*` column is
computed only when the raw column is present (note the source dispatches on
the upper-case name `"NOX"` while SINAICA's pivot produces `"NOx"`), and
`calidad_global` takes the worst known rating of the five. -/
def evalRow (w : WideRow) : EvalRow :=
  let cCO := if hasCol w "CO" then calidad_co (getCell w "CO") else none
  let cO3 := if hasCol w "O3" then calidad_o3 (getCell w "O3") else none
  let cNO2 := if hasCol w "NO2" then calidad_no2 (getCell w "NO2") else none
  let cNOx := if hasCol w "NOX" then calidad_nox (getCell w "NOX") else none
  let cNO := if hasCol w "NO" then calidad_no (getCell w "NO") else none
  ⟨w, cCO, cO3, cNO2, cNOx, cNO, calidad_global [cCO, cO3, cNO2, cNOx, cNO]⟩

/-- `evaluar_calidad_aire`: `None` on a missing or empty dataframe, otherwise
the classified rows. -/
def evaluar_calidad_aire (r : Option Frame) : Option (List EvalRow) :=
  match r with
  | none => none
  | some f => if f.isEmpty then none else some (f.map evalRow)

/-! ### SINAICA fetcher (`get_sinaica_data`) -/

/-- One row object inside a SINAICA JSON blob, restricted to the fields the
program consumes (`columnas_base` also carries id/siglas/nombre/descripcion/
tipoParametro/activo, which no downstream code reads). -/
structure JRow where
  parametro : Option String
  fecha : Option Nat
  hora : Option Nat
  valorAct : Option ℚ
deriving DecidableEq, Repr

/-- A value inside a blob's row sequence: an explicit `null`, a JSON object,
or anything else (skipped by the row loop). -/
inductive RowVal
  | rnull
  | robj (r : JRow)
  | rother
deriving DecidableEq, Repr

/-- A value of a blob key: a JSON array of rows, or anything that fails the
`isinstance(data, list)` test (missing keys are modelled by the `Blob`
returning `none`). -/
inductive JVal
  | varr (rows : List RowVal)
  | vother
deriving DecidableEq, Repr

/-- A parsed JSON object literal (`conts` or `meteo`): key lookup. -/
abbrev Blob := String → Option JVal

/-- The regex/JSON outcome for one blob: the regex matched but `json.loads`
raises (`invalid`), or the blob parsed (`parsed`); a regex non-match is an
absent (`Option.none`) blob. -/
inductive BlobSrc
  | invalid
  | parsed (b : Blob)

/-- The scraped page: the two JSON blobs as located (or not) by the two
regex searches. -/
structure Page where
  conts : Option BlobSrc
  meteo : Option BlobSrc

/-- Upstream behaviour of a SINAICA fetch: the HTTP call raises (timeout or
connection error), or it returns a page. -/
inductive SinaicaUpstream
  | timeout
  | page (p : Page)

/-- The pollutant keys the `conts` loop iterates over. -/
def contKeys : List String := ["CO", "NO", "NO2", "NOx", "O3", "PM10", "PM2.5", "SO2"]

/-- The meteorological keys the `meteo` loop iterates over. -/
def meteoKeys : List String := ["DV", "HR", "TMP", "VV"]

/-- The placeholder row appended for an explicit `null` in a blob's row
sequence: every data field `None` except the parameter name. -/
def nullRow (k : String) : JRow := ⟨some k, none, none, none⟩

/-- The row loop of `get_sinaica_data`: `null` becomes the placeholder row,
dict rows are kept as-is, anything else is skipped. -/
def convertRows (k : String) (rows : List RowVal) : List JRow :=
  rows.filterMap fun rv =>
    match rv with
    | .rnull => some (nullRow k)
    | .robj r => some r
    | .rother => none

/-- The per-blob loop: for each key whose value is a list, one dataframe of
converted rows (appended even when the list is empty). -/
def blobDfs (keys : List String) (b : Blob) : List (List JRow) :=
  keys.filterMap fun k =>
    match b k with
    | some (.varr rows) => some (convertRows k rows)
    | _ => none

/-- A row survives `pivot_table(index=["fecha","hora"], columns="parametro",
values="valorAct")`: the index fields, the column name and the value must all
be non-null. -/
def usableRow (r : JRow) : Bool :=
  r.parametro.isSome && r.fecha.isSome && r.hora.isSome && r.valorAct.isSome

/-- The rows that contribute to the pivot. -/
def usableRows (rows : List JRow) : List JRow :=
  rows.filter usableRow

/-- The pivot index key of a usable row. -/
def jKey (r : JRow) : Key := (r.fecha.getD 0, r.hora.getD 0)

/-- Lexicographic maximum of two pivot keys (the pivot sorts its index; the
later key is the larger). -/
def keyMax (a b : Key) : Key :=
  if a.1 < b.1 ∨ (a.1 = b.1 ∧ a.2 < b.2) then b else a

/-- First-occurrence deduplication (the pivot's distinct column names). -/
def dedupFrom (seen : List String) : List String → List String
  | [] => []
  | x :: xs => if x ∈ seen then dedupFrom seen xs else x :: dedupFrom (x :: seen) xs

/-- Distinct column names of the pivot. -/
def dedup (l : List String) : List String := dedupFrom [] l

/-- The mean aggregation of `pivot_table` over the values of one cell
(`none` for a cell with no contributing value, i.e. `NaN`). -/
def meanOpt (l : List ℚ) : Option ℚ :=
  match l with
  | [] => none
  | _ => some (l.sum / (l.length : ℚ))

/-- `pivot_table(...).tail(1)` over a list of usable rows: the single wide
row of the greatest `(fecha, hora)` key; columns are all parameters observed
anywhere in the pivot (a column whose values all belong to earlier keys is a
`NaN` cell of the last row). -/
def pivotTailAux (us : List JRow) : Frame :=
  match us with
  | [] => []
  | r :: rs =>
    let km := rs.foldl (fun k x => keyMax k (jKey x)) (jKey r)
    let last := (r :: rs).filter fun x => jKey x = km
    let cols := dedup ((r :: rs).map fun x => x.parametro.getD "")
    [⟨km, cols.map fun p =>
        (p, meanOpt ((last.filter fun x => x.parametro.getD "" = p).filterMap
              fun x => x.valorAct))⟩]

/-- `pivot_table` keeps only the fully non-null rows and aggregates them. -/
def pivotTail (rows : List JRow) : Frame := pivotTailAux (usableRows rows)

/-- Whether an optional blob raises inside `json.loads`. -/
def srcInvalid : Option BlobSrc → Bool
  | some .invalid => true
  | _ => false

/-- The dataframes contributed by one optional blob: none when the regex
did not match. -/
def srcDfs (keys : List String) : Option BlobSrc → List (List JRow)
  | some (.parsed b) => blobDfs keys b
  | _ => []

/-- The `try` body of `get_sinaica_data`: raises (`Except.error`) on an HTTP
timeout or when a located blob's JSON is invalid (the `conts` blob is parsed
before the `meteo` regex runs); otherwise `None` when no blob contributed a
dataframe, else the pivoted last row. -/
def sinaicaExc : SinaicaUpstream → Except Unit (Option Frame)
  | .timeout => .error ()
  | .page p =>
    if srcInvalid p.conts then .error ()
    else if srcInvalid p.meteo then .error ()
    else
      let dfs := srcDfs contKeys p.conts ++ srcDfs meteoKeys p.meteo
      if dfs.isEmpty then .ok none else .ok (some (pivotTail dfs.flatten))

/-- `get_sinaica_data`: the catch-all `except` turns every raised error into
the `None` result. -/
def get_sinaica_data (u : SinaicaUpstream) : Option Frame :=
  match sinaicaExc u with
  | .ok r => r
  | .error _ => none

/-- Whether `get_sinaica_data` emits its `st.error` diagnostic (exactly on
the exception path). -/
def sinaicaDiag (u : SinaicaUpstream) : Bool :=
  match sinaicaExc u with
  | .ok _ => false
  | .error _ => true

/-! ### OpenAQ fetcher (`get_openaq_data`) -/

/-- The latest observation of one OpenAQ sensor, as consumed by the program:
parameter name (raw casing), latest value, and the date/hour split of
`latest_datetime_local`. -/
structure OASensor where
  name : String
  value : ℚ
  fecha : Nat
  hora : Nat
deriving DecidableEq, Repr

/-- The outcome of the per-sensor `GET /v3/sensors/{id}` call:
`raise_for_status` raises, or the sensor's latest observation arrives. -/
inductive OASensorCall
  | httpError
  | ok (s : OASensor)
deriving DecidableEq, Repr

/-- The parsed body of the `GET /v3/locations/{id}` call: `results` is a
list of locations, each carrying its sensor list (the program reads
`data["results"][0]["sensors"]`). -/
structure OAPayload where
  results : List (List OASensorCall)
deriving Repr

/-- Upstream behaviour of an OpenAQ fetch: the listing call raises
(timeout or `raise_for_status`), its body is not valid JSON, or a payload
arrives. -/
inductive OAUpstream
  | httpError
  | badJson
  | ok (p : OAPayload)

/-- A long-format row of the concatenated per-sensor dataframes. -/
structure ORow where
  parametro : String
  fecha : Nat
  hora : Nat
  valorAct : ℚ
deriving DecidableEq, Repr

/-- The columns kept from one sensor's payload. -/
def sensorRow (s : OASensor) : ORow := ⟨s.name, s.fecha, s.hora, s.value⟩

/-- The per-sensor loop: each success appends one dataframe; the first HTTP
failure raises out of the loop (its `raise_for_status` is inside the `for`,
with no handler closer than the function's catch-all). -/
def collectSensors : List OASensorCall → Except Unit (List ORow)
  | [] => .ok []
  | .httpError :: _ => .error ()
  | .ok s :: rest =>
    match collectSensors rest with
    | .ok rs => .ok (sensorRow s :: rs)
    | .error e => .error e

/-- `parametro.str.upper()`: upper-case a parameter name (modelled
character-wise over the string's character list; the OpenAQ parameter names
are ASCII). -/
def strUpper (s : String) : String := ⟨s.data.map Char.toUpper⟩

/-- The normalization and pivot of `get_openaq_data`: upper-case the
parameter names, keep only the rows of the greatest date and, within it, the
greatest hour, and pivot them into one wide row. -/
def openaqPivot (rows0 : List ORow) : Frame :=
  let rows := rows0.map fun r => { r with parametro := strUpper r.parametro }
  let fmax := (rows.map (fun r => r.fecha)).foldl max 0
  let hmax := ((rows.filter fun r => r.fecha = fmax).map fun r => r.hora).foldl max 0
  let ult := rows.filter fun r => r.fecha = fmax && r.hora = hmax
  let cols := dedup (ult.map fun r => r.parametro)
  [⟨(fmax, hmax), cols.map fun p =>
      (p, meanOpt ((ult.filter fun r => r.parametro = p).map fun r => r.valorAct))⟩]

/-- The `try` body of `get_openaq_data`: the listing call may raise, reading
`results[0]` of an empty list raises, any sensor call may raise; otherwise
`None` when no sensor contributed, else the pivoted wide row. -/
def openaqExc : OAUpstream → Except Unit (Option Frame)
  | .httpError => .error ()
  | .badJson => .error ()
  | .ok p =>
    match p.results.head? with
    | none => .error ()
    | some sensors =>
      match collectSensors sensors with
      | .error _ => .error ()
      | .ok rows => if rows.isEmpty then .ok none else .ok (some (openaqPivot rows))

/-- `get_openaq_data`: the catch-all `except` turns every raised error into
the `None` result. -/
def get_openaq_data (u : OAUpstream) : Option Frame :=
  match openaqExc u with
  | .ok r => r
  | .error _ => none

/-- Whether `get_openaq_data` emits its `st.error` diagnostic. -/
def openaqDiag (u : OAUpstream) : Bool :=
  match openaqExc u with
  | .ok _ => false
  | .error _ => true

/-! ### The per-station scan body (`datos_para_mapa` / `resultados`) -/

/-- The sidebar source selection (`"Ambas"`, `"SINAICA"`, `"OpenAQ"`). -/
inductive FuenteSel
  | ambas
  | sinaica
  | openaq
deriving DecidableEq, Repr

/-- One `datos_para_mapa` entry: the station's overall rating, its source
tag, and the non-null numeric cells of the wide row.  (The Python dict also
copies the `calidad_*` rating strings into `valores`; only the numeric cells
are modelled, as nothing the verified claims mention consumes the rest.) -/
structure MapEntry where
  calidad_global : Option Calidad
  fuente : String
  valores : List (String × ℚ)
deriving DecidableEq, Repr

/-- Building a `datos_para_mapa` entry from a classified dataframe
(`iloc[0]` of the single row). -/
def buildEntry (src : String) (ev : List EvalRow) : MapEntry :=
  match ev with
  | [] => ⟨none, src, []⟩
  | e :: _ =>
    ⟨e.global, src,
      e.base.cols.filterMap fun cv =>
        match cv.2 with
        | some v => some (cv.1, v)
        | none => none⟩

/-- The body of the scan loop for one station, given the outcome of each
fetch (`none` covers both a raised-and-caught error and a `None` return;
`some f` a returned dataframe, possibly empty).  Returns the entries
appended to `resultados` and the station's `datos_para_mapa` entry:
the SINAICA branch runs first and stores its entry on any non-empty
success; the OpenAQ branch then stores its own only when the station has
no entry yet. -/
def scanStation (sel : FuenteSel) (sin opq : Option Frame) :
    List (String × List EvalRow) × Option MapEntry :=
  let sinEv := if sel = .ambas ∨ sel = .sinaica then evaluar_calidad_aire sin else none
  let res1 := match sinEv with
    | some ev => [("SINAICA", ev)]
    | none => []
  let m1 : Option MapEntry := match sinEv with
    | some ev => some (buildEntry "SINAICA" ev)
    | none => none
  let opqEv := if sel = .ambas ∨ sel = .openaq then evaluar_calidad_aire opq else none
  let res2 := match opqEv with
    | some ev => [("OPENAQ", ev)]
    | none => []
  let m2 : Option MapEntry := match m1, opqEv with
    | some e, _ => some e
    | none, some ev => some (buildEntry "OPENAQ" ev)
    | none, none => none
  (res1 ++ res2, m2)

/-- A fetch outcome that counts as a non-empty success
(`df is not None and not df.empty`). -/
def nonEmptyF : Option Frame → Bool
  | none => false
  | some f => !f.isEmpty

/-! ### The result cache (`@st.cache_data`) -/

/-- A cache key: source tag and provider station id. -/
abbrev CKey := String × Nat

/-- Modelled from the spec: the state of the `st.cache_data` memoization
applied to the fetchers (the implementation lives in the Streamlit library,
outside this repository).  `entries` maps a key to its store time and cached
result; `calls` counts upstream invocations. -/
structure CacheState where
  entries : List (CKey × Nat × Option Frame)
  calls : Nat
deriving Repr

/-- Modelled from the spec: a cache miss or an expired entry invokes the
upstream fetcher, stores the fresh result at the current time and counts
one upstream call. -/
def cacheRefresh (upstream : CKey → Option Frame) (now : Nat) (k : CKey)
    (s : CacheState) : Option Frame × CacheState :=
  let v := upstream k
  (v, ⟨(k, now, v) :: s.entries.filter (fun e => !decide (e.1 = k)), s.calls + 1⟩)

/-- Modelled from the spec: a fetch through the TTL cache.  An entry stored
at `t` serves reads while `now < t + ttl`; an expired entry is recomputed
lazily on this access. -/
def cacheFetch (ttl : Nat) (upstream : CKey → Option Frame) (now : Nat)
    (k : CKey) (s : CacheState) : Option Frame × CacheState :=
  match s.entries.find? (fun e => decide (e.1 = k)) with
  | some e => if now < e.2.1 + ttl then (e.2.2, s) else cacheRefresh upstream now k s
  | none => cacheRefresh upstream now k s

/-- Modelled from the spec: `st.cache_data.clear()` drops every cached
entry (the sidebar's invalidation button). -/
def cacheClear (s : CacheState) : CacheState := ⟨[], s.calls⟩

/-- The TTL the decorators declare: `@st.cache_data(ttl=600)`. -/
def sinaicaTTL : Nat := 600

/-- The usable (pivot-surviving) rows contributed by one blob. -/
def blobUsable (keys : List String) (b : Blob) : List JRow :=
  usableRows ((blobDfs keys b).flatten)

/-- Keep only the JSON-object rows of a blob's row sequence (dropping the
explicit nulls and the malformed entries). -/
def cleanRows (rows : List RowVal) : List RowVal :=
  rows.filter fun rv =>
    match rv with
    | .robj _ => true
    | _ => false

/-- Apply `cleanRows` below a blob value. -/
def cleanVal : JVal → JVal
  | .varr rows => .varr (cleanRows rows)
  | .vother => .vother

/-- Apply `cleanRows` below every key of a blob. -/
def cleanBlob (b : Blob) : Blob := fun k => (b k).map cleanVal

/-- Apply `cleanRows` below a located blob. -/
def cleanSrc : Option BlobSrc → Option BlobSrc
  | some (.parsed b) => some (.parsed (cleanBlob b))
  | x => x

/-- A SINAICA `conts` blob whose only key is `NOx`, holding one well-formed
row with a Poor-level value. -/
def noxBlob : Blob := fun k =>
  if k = "NOx" then some (.varr [.robj ⟨some "NOx", some 1, some 1, some 1⟩]) else none

/-- A SINAICA `conts` blob whose `CO` sequence mixes an explicit null and a
malformed entry around one well-formed row. -/
def mixedBlob : Blob := fun k =>
  if k = "CO" then
    some (.varr [.rnull, .robj ⟨some "CO", some 1, some 2, some 3⟩, .rother])
  else none

/-- A SINAICA `meteo` blob holding one well-formed temperature row. -/
def tmpBlob : Blob := fun k =>
  if k = "TMP" then some (.varr [.robj ⟨some "TMP", some 1, some 2, some 25⟩]) else none

/-! ### Theorems -/

/-- C1: each per-pollutant classifier is a pure threshold function with the
lower tier inclusive — Good up to the Good bound (CO 5.5, O3 0.055, NO2
0.10, NOx 0.10, NO 0.05 ppm), Moderate above it up to the Moderate bound
(CO 11, O3 0.095, NO2 0.21, NOx 0.20, NO 0.15 ppm), Poor above that, and
Unknown (`none`, never zero or a default tier) on an absent value. -/
theorem claim_threshold_classifiers :
    (calidad_co none = none ∧ ∀ v : ℚ,
      (v ≤ 5.5 → calidad_co (some v) = some .buena) ∧
      (5.5 < v → v ≤ 11 → calidad_co (some v) = some .regular) ∧
      (11 < v → calidad_co (some v) = some .mala)) ∧
    (calidad_o3 none = none ∧ ∀ v : ℚ,
      (v ≤ 0.055 → calidad_o3 (some v) = some .buena) ∧
      (0.055 < v → v ≤ 0.095 → calidad_o3 (some v) = some .regular) ∧
      (0.095 < v → calidad_o3 (some v) = some .mala)) ∧
    (calidad_no2 none = none ∧ ∀ v : ℚ,
      (v ≤ 0.10 → calidad_no2 (some v) = some .buena) ∧
      (0.10 < v → v ≤ 0.21 → calidad_no2 (some v) = some .regular) ∧
      (0.21 < v → calidad_no2 (some v) = some .mala)) ∧
    (calidad_nox none = none ∧ ∀ v : ℚ,
      (v ≤ 0.10 → calidad_nox (some v) = some .buena) ∧
      (0.10 < v → v ≤ 0.20 → calidad_nox (some v) = some .regular) ∧
      (0.20 < v → calidad_nox (some v) = some .mala)) ∧
    (calidad_no none = none ∧ ∀ v : ℚ,
      (v ≤ 0.05 → calidad_no (some v) = some .buena) ∧
      (0.05 < v → v ≤ 0.15 → calidad_no (some v) = some .regular) ∧
      (0.15 < v → calidad_no (some v) = some .mala)) := by
  refine ⟨⟨rfl, fun v => ⟨fun h => ?_, fun h1 h2 => ?_, fun h => ?_⟩⟩,
    ⟨rfl, fun v => ⟨fun h => ?_, fun h1 h2 => ?_, fun h => ?_⟩⟩,
    ⟨rfl, fun v => ⟨fun h => ?_, fun h1 h2 => ?_, fun h => ?_⟩⟩,
    ⟨rfl, fun v => ⟨fun h => ?_, fun h1 h2 => ?_, fun h => ?_⟩⟩,
    ⟨rfl, fun v => ⟨fun h => ?_, fun h1 h2 => ?_, fun h => ?_⟩⟩⟩
  · simp [calidad_co, h]
  · simp [calidad_co, not_le.mpr h1, h2]
  · simp [calidad_co, not_le.mpr h, not_le.mpr (show (5.5 : ℚ) < v by linarith)]
  · simp [calidad_o3, h]
  · simp [calidad_o3, not_le.mpr h1, h2]
  · simp [calidad_o3, not_le.mpr h, not_le.mpr (show (0.055 : ℚ) < v by linarith)]
  · simp [calidad_no2, h]
  · simp [calidad_no2, not_le.mpr h1, h2]
  · simp [calidad_no2, not_le.mpr h, not_le.mpr (show (0.10 : ℚ) < v by linarith)]
  · simp [calidad_nox, h]
  · simp [calidad_nox, not_le.mpr h1, h2]
  · simp [calidad_nox, not_le.mpr h, not_le.mpr (show (0.10 : ℚ) < v by linarith)]
  · simp [calidad_no, h]
  · simp [calidad_no, not_le.mpr h1, h2]
  · simp [calidad_no, not_le.mpr h, not_le.mpr (show (0.05 : ℚ) < v by linarith)]

/-- Witness for C1: concrete boundary evaluations through the theorem. -/
theorem claim_threshold_classifiers_witness :
    calidad_co (some 6) = some Calidad.regular ∧
    calidad_o3 (some 0.1) = some Calidad.mala :=
  ⟨(claim_threshold_classifiers.1.2 6).2.1 (by norm_num) (by norm_num),
   (claim_threshold_classifiers.2.1.2 0.1).2.2 (by norm_num)⟩

/-- C2: the overall rating is the worst (maximum under Good < Moderate <
Poor) of exactly the known per-pollutant ratings, `none` when no rating is
known; in particular Good/Poor/Unknown yields Poor and no ratings yield
Unknown. -/
theorem claim_overall_rating :
    (∀ c1 c2 c3 c4 c5 : Option Calidad,
      (calidad_global [c1, c2, c3, c4, c5] = none ↔
        [c1, c2, c3, c4, c5].filterMap id = []) ∧
      (∀ m, calidad_global [c1, c2, c3, c4, c5] = some m →
        m ∈ [c1, c2, c3, c4, c5].filterMap id ∧
        ∀ c ∈ [c1, c2, c3, c4, c5].filterMap id, orden c ≤ orden m)) ∧
    calidad_global [some .buena, some .mala, none, none, none] = some .mala ∧
    calidad_global [none, none, none, none, none] = none := by decide

/-- Witness for C2: the Good/Poor/Unknown example, through the theorem. -/
theorem claim_overall_rating_witness :
    Calidad.mala ∈ [some Calidad.buena, some Calidad.mala, none, none, none].filterMap id ∧
    ∀ c ∈ [some Calidad.buena, some Calidad.mala, none, none, none].filterMap id,
      orden c ≤ orden Calidad.mala :=
  (claim_overall_rating.1 (some .buena) (some .mala) none none none).2 .mala (by decide)

/-- Any failed sensor call aborts the whole sensor loop. -/
theorem collectSensors_error_of_mem {l : List OASensorCall}
    (h : OASensorCall.httpError ∈ l) : collectSensors l = .error () := by
  induction l with
  | nil => cases h
  | cons x xs ih =>
    cases x with
    | httpError => rfl
    | ok s =>
      have hx : OASensorCall.httpError ∈ xs := by
        rcases List.mem_cons.mp h with h' | h'
        · exact absurd h' (by simp)
        · exact h'
      simp [collectSensors, ih hx]

/-- With no failed call, the sensor loop returns one row per sensor. -/
theorem collectSensors_ok_of_not_mem {l : List OASensorCall}
    (h : OASensorCall.httpError ∉ l) :
    ∃ rs, collectSensors l = .ok rs ∧ rs.length = l.length := by
  induction l with
  | nil => exact ⟨[], rfl, rfl⟩
  | cons x xs ih =>
    cases x with
    | httpError => exact absurd (List.mem_cons_self _ _) h
    | ok s =>
      obtain ⟨rs, hrs, hlen⟩ := ih fun hm => h (List.mem_cons_of_mem _ hm)
      exact ⟨sensorRow s :: rs, by simp [collectSensors, hrs], by simp [hlen]⟩

/-- Counterexample to C3: one sensor succeeds with a CO value, another
sensor's call fails with an HTTP error — the fetch returns no data at all
(the per-sensor `raise_for_status` propagates to the function's catch-all),
instead of a row still holding the succeeded sensor's value. -/
theorem claim_rest_sensor_failure_counterexample :
    get_openaq_data (.ok ⟨[[.ok ⟨"co", 4, 1, 2⟩, .httpError]]⟩) = none := rfl

/-- C3 as the code behaves (amended): an individual sensor's HTTP failure is
fatal to the whole REST fetch — the fetch yields `none` exactly when the
sensor list is empty or some sensor call failed; when every sensor call
succeeds, the wide row of the latest (date, hour) is returned, as on the
concrete single-sensor run shown. -/
theorem claim_rest_sensor_failure :
    (∀ sensors : List OASensorCall,
      get_openaq_data (.ok ⟨[sensors]⟩) = none ↔
        sensors = [] ∨ OASensorCall.httpError ∈ sensors) ∧
    get_openaq_data (.ok ⟨[[.ok ⟨"co", 4, 1, 2⟩]]⟩) =
      some [⟨(1, 2), [("CO", some 4)]⟩] := by
  constructor
  · intro sensors
    constructor
    · intro hres
      by_cases hmem : OASensorCall.httpError ∈ sensors
      · exact Or.inr hmem
      · obtain ⟨rs, hrs, hlen⟩ := collectSensors_ok_of_not_mem hmem
        simp only [get_openaq_data, openaqExc, List.head?, hrs] at hres
        by_cases he : rs.isEmpty
        · exact Or.inl (List.length_eq_zero.mp (hlen ▸ List.isEmpty_iff_length_eq_zero.mp he))
        · simp [he] at hres
    · intro h
      rcases h with h0 | hmem
      · subst h0; rfl
      · simp [get_openaq_data, openaqExc, collectSensors_error_of_mem hmem]
  · norm_num [get_openaq_data, openaqExc, collectSensors, sensorRow, openaqPivot,
      dedup, dedupFrom, meanOpt]
    decide

/-- C10: the fetchers never propagate an exception: every raised internal
failure (HTTP timeout, `raise_for_status`, invalid JSON of a located blob,
an empty `results` list, a failed sensor call) is absorbed by each
function's catch-all `except`, which yields the `None` result together with
the `st.error` diagnostic; a non-raising run's result passes through
unchanged, so the calling scan loop is total over fetch outcomes. -/
theorem claim_fetchers_total :
    (∀ u, sinaicaExc u = .error () →
      get_sinaica_data u = none ∧ sinaicaDiag u = true) ∧
    (∀ u r, sinaicaExc u = .ok r →
      get_sinaica_data u = r ∧ sinaicaDiag u = false) ∧
    (∀ u, openaqExc u = .error () →
      get_openaq_data u = none ∧ openaqDiag u = true) ∧
    (∀ u r, openaqExc u = .ok r →
      get_openaq_data u = r ∧ openaqDiag u = false) ∧
    get_sinaica_data .timeout = none ∧
    get_sinaica_data (.page ⟨some .invalid, none⟩) = none ∧
    get_openaq_data .httpError = none ∧
    get_openaq_data .badJson = none ∧
    get_openaq_data (.ok ⟨[]⟩) = none ∧ openaqDiag (.ok ⟨[]⟩) = true := by
  refine ⟨fun u h => ?_, fun u r h => ?_, fun u h => ?_, fun u r h => ?_,
    rfl, rfl, rfl, rfl, rfl, rfl⟩
  · simp [get_sinaica_data, sinaicaDiag, h]
  · simp [get_sinaica_data, sinaicaDiag, h]
  · simp [get_openaq_data, openaqDiag, h]
  · simp [get_openaq_data, openaqDiag, h]

/-- Witness for C10: the timeout failure mode, through the theorem. -/
theorem claim_fetchers_total_witness :
    get_sinaica_data SinaicaUpstream.timeout = none ∧
    sinaicaDiag SinaicaUpstream.timeout = true :=
  claim_fetchers_total.1 .timeout rfl

/-- `evaluar_calidad_aire` returns `None` exactly on the fetch outcomes that
fail the `df is not None and not df.empty` guard. -/
theorem evaluar_eq_none_iff (r : Option Frame) :
    evaluar_calidad_aire r = none ↔ nonEmptyF r = false := by
  cases r with
  | none => simp [evaluar_calidad_aire, nonEmptyF]
  | some f =>
    by_cases h : f.isEmpty <;> simp [evaluar_calidad_aire, nonEmptyF, h]

/-- A classified result implies its fetch was a non-empty success. -/
theorem nonEmptyF_of_evaluar_some {r : Option Frame} {ev : List EvalRow}
    (h : evaluar_calidad_aire r = some ev) : nonEmptyF r = true := by
  by_contra hne
  rw [(evaluar_eq_none_iff r).mpr (by simpa using hne)] at h
  cases h

/-- The source tag stored in a `datos_para_mapa` entry. -/
theorem buildEntry_fuente (src : String) (ev : List EvalRow) :
    (buildEntry src ev).fuente = src := by
  cases ev <;> rfl

/-- C4: with both sources requested, the station's map entry comes from the
first source in request order (SINAICA before OpenAQ) that returned a
non-empty success: a non-empty SINAICA fetch always owns the entry, and the
OpenAQ fetch owns it when the SINAICA fetch failed or was empty. -/
theorem claim_primary_precedence :
    ∀ sin opq : Option Frame,
      (nonEmptyF sin = true →
        ∃ e, (scanStation .ambas sin opq).2 = some e ∧ e.fuente = "SINAICA") ∧
      (nonEmptyF sin = false → nonEmptyF opq = true →
        ∃ e, (scanStation .ambas sin opq).2 = some e ∧ e.fuente = "OPENAQ") := by
  intro sin opq
  constructor
  · intro hs
    obtain ⟨ev, hev⟩ : ∃ ev, evaluar_calidad_aire sin = some ev := by
      cases h : evaluar_calidad_aire sin with
      | none => rw [evaluar_eq_none_iff] at h; rw [h] at hs; cases hs
      | some ev => exact ⟨ev, rfl⟩
    exact ⟨buildEntry "SINAICA" ev, by simp [scanStation, hev], buildEntry_fuente _ _⟩
  · intro hs ho
    have hsn : evaluar_calidad_aire sin = none := (evaluar_eq_none_iff sin).mpr hs
    obtain ⟨ev, hev⟩ : ∃ ev, evaluar_calidad_aire opq = some ev := by
      cases h : evaluar_calidad_aire opq with
      | none => rw [evaluar_eq_none_iff] at h; rw [h] at ho; cases ho
      | some ev => exact ⟨ev, rfl⟩
    exact ⟨buildEntry "OPENAQ" ev, by simp [scanStation, hsn, hev], buildEntry_fuente _ _⟩

/-- Witness for C4: a concrete non-empty SINAICA frame owns the entry. -/
theorem claim_primary_precedence_witness :
    nonEmptyF (some [⟨(1, 1), [("CO", some 4)]⟩]) = true ∧
    ∃ e, (scanStation .ambas (some [⟨(1, 1), [("CO", some 4)]⟩]) none).2 = some e ∧
      e.fuente = "SINAICA" :=
  ⟨rfl, (claim_primary_precedence (some [⟨(1, 1), [("CO", some 4)]⟩]) none).1 rfl⟩

/-- Counterexample to C7: the SINAICA fetch fails while the OpenAQ fetch
succeeds — the retained result list holds only the OpenAQ entry; the failed
source's result is not retained anywhere in the snapshot (it only produces a
transient diagnostic). -/
theorem claim_sources_retained_counterexample :
    ((scanStation .ambas none (some [⟨(1, 1), [("CO", some 4)]⟩])).1.map Prod.fst
      = ["OPENAQ"]) ∧
    "SINAICA" ∉
      ((scanStation .ambas none (some [⟨(1, 1), [("CO", some 4)]⟩])).1.map Prod.fst) := by
  refine ⟨rfl, ?_⟩
  intro h
  rw [show (scanStation .ambas none (some [⟨(1, 1), [("CO", some 4)]⟩])).1.map Prod.fst
      = ["OPENAQ"] from rfl] at h
  simp at h

/-- C7 as the code behaves (amended): both requested sources are attempted
independently — one source's failure or empty result never prevents the
other's non-empty success from being retained — and the station reaches
no-data status exactly when every requested source fails or returns empty;
however only non-empty successes are retained (a failed source leaves no
entry in the result list). -/
theorem claim_sources_attempted :
    ∀ sin opq : Option Frame,
      (nonEmptyF opq = true →
        "OPENAQ" ∈ ((scanStation .ambas sin opq).1.map Prod.fst)) ∧
      (nonEmptyF sin = true →
        "SINAICA" ∈ ((scanStation .ambas sin opq).1.map Prod.fst)) ∧
      ((scanStation .ambas sin opq).2 = none ↔
        nonEmptyF sin = false ∧ nonEmptyF opq = false) ∧
      (nonEmptyF sin = false →
        "SINAICA" ∉ ((scanStation .ambas sin opq).1.map Prod.fst)) := by
  intro sin opq
  cases h1 : evaluar_calidad_aire sin with
  | none =>
    have hs : nonEmptyF sin = false := (evaluar_eq_none_iff sin).mp h1
    cases h2 : evaluar_calidad_aire opq with
    | none =>
      have ho : nonEmptyF opq = false := (evaluar_eq_none_iff opq).mp h2
      refine ⟨?_, ?_, ?_, ?_⟩ <;> simp [scanStation, h1, h2, hs, ho]
    | some evo =>
      have ho : nonEmptyF opq = true := nonEmptyF_of_evaluar_some h2
      refine ⟨?_, ?_, ?_, ?_⟩ <;> simp [scanStation, h1, h2, hs, ho]
  | some evs =>
    have hs : nonEmptyF sin = true := nonEmptyF_of_evaluar_some h1
    cases h2 : evaluar_calidad_aire opq with
    | none =>
      have ho : nonEmptyF opq = false := (evaluar_eq_none_iff opq).mp h2
      refine ⟨?_, ?_, ?_, ?_⟩ <;> simp [scanStation, h1, h2, hs, ho]
    | some evo =>
      have ho : nonEmptyF opq = true := nonEmptyF_of_evaluar_some h2
      refine ⟨?_, ?_, ?_, ?_⟩ <;> simp [scanStation, h1, h2, hs, ho]

/-- Witness for C7 (amended): a concrete OpenAQ success is retained although
the SINAICA fetch failed. -/
theorem claim_sources_attempted_witness :
    "OPENAQ" ∈
      ((scanStation .ambas none (some [⟨(1, 1), [("O3", some 1)]⟩])).1.map Prod.fst) :=
  (claim_sources_attempted none (some [⟨(1, 1), [("O3", some 1)]⟩])).1 rfl

/-- Counterexample to C6: the same pollutant (NOx, value 1 ppm) does not end
up under one canonical code — the SINAICA pivot keeps the column `"NOx"`,
which `evaluar_calidad_aire` (dispatching on `"NOX"`) never classifies, so
the overall rating stays Unknown; the OpenAQ path upper-cases the name to
`"NOX"` and rates the very same value Poor. -/
theorem claim_normalizer_counterexample :
    ((get_sinaica_data (.page ⟨some (.parsed noxBlob), none⟩)).map
        fun f => f.map fun w => w.cols.map Prod.fst) = some [["NOx"]] ∧
    ((evaluar_calidad_aire (get_sinaica_data (.page ⟨some (.parsed noxBlob), none⟩))).map
        fun l => l.map fun e => e.global) = some [none] ∧
    ((get_openaq_data (.ok ⟨[[.ok ⟨"nox", 1, 1, 1⟩]]⟩)).map
        fun f => f.map fun w => w.cols.map Prod.fst) = some [["NOX"]] ∧
    ((evaluar_calidad_aire (get_openaq_data (.ok ⟨[[.ok ⟨"nox", 1, 1, 1⟩]]⟩))).map
        fun l => l.map fun e => e.global) = some [some .mala] := by
  have h1 : get_openaq_data (.ok ⟨[[.ok ⟨"nox", 1, 1, 1⟩]]⟩)
      = some [⟨(1, 1), [("NOX", some 1)]⟩] := by
    norm_num [get_openaq_data, openaqExc, collectSensors, sensorRow, openaqPivot,
      dedup, dedupFrom, meanOpt]
    decide
  refine ⟨rfl, rfl, by rw [h1]; rfl, ?_⟩
  rw [h1]
  norm_num [evaluar_calidad_aire, evalRow, hasCol, getCell, calidad_global,
    pyMaxCalidad, calidad_nox, List.lookup]
  rfl

/-- C6 as the code behaves (amended): source naming is unified exactly for
the pollutant codes that are already caps-only — for CO, O3, NO2, NO, PM10
and SO2 the SINAICA key equals its upper-cased OpenAQ form, so either
source's column meets the same classifier dispatch — while NOx is split:
OpenAQ's upper-cased `"NOX"` column is rated by `calidad_nox`, but
SINAICA's `"NOx"` column matches no dispatch key and is left unrated. -/
theorem claim_normalizer_caps_only :
    (∀ k ∈ ["CO", "O3", "NO2", "NO", "PM10", "SO2"], strUpper k = k) ∧
    strUpper "NOx" = "NOX" ∧
    (∀ v : ℚ,
      (evalRow ⟨(1, 1), [("NOX", some v)]⟩).cNOx = calidad_nox (some v) ∧
      (evalRow ⟨(1, 1), [("NOx", some v)]⟩).cNOx = none ∧
      (evalRow ⟨(1, 1), [("NOx", some v)]⟩).global = none) :=
  ⟨by decide, by decide, fun v => ⟨rfl, rfl, rfl⟩⟩

/-- Witness for C6 (amended): the CO code is caps-only and unchanged by the
OpenAQ normalization. -/
theorem claim_normalizer_caps_only_witness :
    "CO" ∈ ["CO", "O3", "NO2", "NO", "PM10", "SO2"] ∧ strUpper "CO" = "CO" :=
  ⟨by decide, claim_normalizer_caps_only.1 "CO" (by decide)⟩

/-- C9 (cache behaviour modelled from the spec, since `st.cache_data` is
implemented by the Streamlit library): with the declared TTL of 600 s, a
second fetch of the same (source, station id) key inside the TTL window
returns the identical data with no further upstream call; a fetch at or
after TTL expiry recomputes lazily with one new upstream call; and a full
invalidation clears every entry, after which the next fetch goes upstream
again. -/
theorem claim_cache_ttl :
    sinaicaTTL = 600 ∧
    ∀ (up : CKey → Option Frame) (s : CacheState) (k : CKey) (t1 t2 t3 : Nat),
      s.entries.find? (fun e => decide (e.1 = k)) = none →
      ((cacheFetch sinaicaTTL up t1 k s).1 = up k ∧
        (cacheFetch sinaicaTTL up t1 k s).2.calls = s.calls + 1) ∧
      (t2 < t1 + sinaicaTTL →
        cacheFetch sinaicaTTL up t2 k (cacheFetch sinaicaTTL up t1 k s).2 =
          ((cacheFetch sinaicaTTL up t1 k s).1, (cacheFetch sinaicaTTL up t1 k s).2)) ∧
      (t1 + sinaicaTTL ≤ t3 →
        (cacheFetch sinaicaTTL up t3 k (cacheFetch sinaicaTTL up t1 k s).2).1 = up k ∧
        (cacheFetch sinaicaTTL up t3 k (cacheFetch sinaicaTTL up t1 k s).2).2.calls =
          s.calls + 2) ∧
      ((cacheClear (cacheFetch sinaicaTTL up t1 k s).2).entries = [] ∧
        (cacheFetch sinaicaTTL up t2 k
          (cacheClear (cacheFetch sinaicaTTL up t1 k s).2)).2.calls = s.calls + 2) := by
  refine ⟨rfl, fun up s k t1 t2 t3 hk => ?_⟩
  have h1 : cacheFetch sinaicaTTL up t1 k s = cacheRefresh up t1 k s := by
    simp [cacheFetch, hk]
  refine ⟨?_, ?_, ?_, ?_⟩
  · rw [h1]; exact ⟨rfl, rfl⟩
  · intro ht
    rw [h1]
    simp [cacheFetch, cacheRefresh, List.find?, ht]
  · intro ht
    rw [h1]
    have hnot : ¬ t3 < t1 + sinaicaTTL := not_lt.mpr ht
    simp [cacheFetch, cacheRefresh, List.find?, hnot]
  · rw [h1]
    exact ⟨rfl, by simp [cacheClear, cacheFetch, cacheRefresh, List.find?]⟩

/-- Witness for C9: a concrete cold cache, key and times through the
theorem: the in-window fetch at t=599 is served from the cache and the
fetch at t=600 recomputes with a second upstream call. -/
theorem claim_cache_ttl_witness :
    cacheFetch sinaicaTTL (fun _ => none) 599 ("SINAICA", 242)
        (cacheFetch sinaicaTTL (fun _ => none) 0 ("SINAICA", 242) ⟨[], 0⟩).2 =
      ((cacheFetch sinaicaTTL (fun _ => none) 0 ("SINAICA", 242) ⟨[], 0⟩).1,
        (cacheFetch sinaicaTTL (fun _ => none) 0 ("SINAICA", 242) ⟨[], 0⟩).2) ∧
    (cacheFetch sinaicaTTL (fun _ => none) 600 ("SINAICA", 242)
        (cacheFetch sinaicaTTL (fun _ => none) 0 ("SINAICA", 242) ⟨[], 0⟩).2).2.calls
      = 0 + 2 :=
  ⟨(claim_cache_ttl.2 (fun _ => none) ⟨[], 0⟩ ("SINAICA", 242) 0 599 600 rfl).2.1
      (by decide),
   ((claim_cache_ttl.2 (fun _ => none) ⟨[], 0⟩ ("SINAICA", 242) 0 599 600 rfl).2.2.1
      (by decide)).2⟩

/-- Deduplication only keeps names that were in the input list. -/
theorem mem_of_mem_dedupFrom {c : String} :
    ∀ (l seen : List String), c ∈ dedupFrom seen l → c ∈ l := by
  intro l
  induction l with
  | nil => intro seen h; cases h
  | cons x xs ih =>
    intro seen h
    by_cases hx : x ∈ seen
    · rw [dedupFrom, if_pos hx] at h
      exact List.mem_cons_of_mem _ (ih _ h)
    · rw [dedupFrom, if_neg hx] at h
      rcases List.mem_cons.mp h with h' | h'
      · exact h' ▸ List.mem_cons_self _ _
      · exact List.mem_cons_of_mem _ (ih _ h')

/-- Projecting the first components back out of a pairing map. -/
theorem map_fst_pair {α β : Type} (g : α → β) :
    ∀ l : List α, (l.map fun p => (p, g p)).map Prod.fst = l := by
  intro l
  induction l with
  | nil => rfl
  | cons x xs ih => simp [ih]

/-- The pivot of a non-empty usable-row list is one wide row whose column
names are the distinct parameter names of those rows. -/
theorem pivotTailAux_cols (r : JRow) (rs : List JRow) :
    ∃ w, pivotTailAux (r :: rs) = [w] ∧
      w.cols.map Prod.fst = dedup ((r :: rs).map fun x => x.parametro.getD "") := by
  refine ⟨_, rfl, ?_⟩
  exact map_fst_pair _ _

/-- The pivot produces no row exactly on an empty usable-row list. -/
theorem pivotTailAux_eq_nil_iff (us : List JRow) :
    pivotTailAux us = [] ↔ us = [] := by
  cases us <;> simp [pivotTailAux]

/-- Filtering usable rows distributes over append. -/
theorem usableRows_append (a b : List JRow) :
    usableRows (a ++ b) = usableRows a ++ usableRows b :=
  List.filter_append _ _

/-- Filtering usable rows over a cons. -/
theorem usableRows_cons (x : JRow) (l : List JRow) :
    usableRows (x :: l) =
      if usableRow x then x :: usableRows l else usableRows l := by
  simp [usableRows, List.filter_cons]

/-- Dropping the null and malformed entries of a row sequence does not
change its usable rows: the null placeholder row has no date, hour or value
and is filtered out of the pivot, and malformed entries are skipped. -/
theorem usable_convert_clean (k : String) (rows : List RowVal) :
    usableRows (convertRows k (cleanRows rows)) = usableRows (convertRows k rows) := by
  induction rows with
  | nil => rfl
  | cons rv rest ih =>
    cases rv with
    | rnull =>
      have h1 : cleanRows (RowVal.rnull :: rest) = cleanRows rest := by
        simp [cleanRows, List.filter_cons]
      have h2 : convertRows k (RowVal.rnull :: rest) = nullRow k :: convertRows k rest := by
        simp [convertRows, List.filterMap_cons]
      rw [h1, h2, usableRows_cons, ih]
      simp [usableRow, nullRow]
    | robj r =>
      have h1 : cleanRows (RowVal.robj r :: rest) = .robj r :: cleanRows rest := by
        simp [cleanRows, List.filter_cons]
      have h2 : ∀ l, convertRows k (RowVal.robj r :: l) = r :: convertRows k l := by
        intro l; simp [convertRows, List.filterMap_cons]
      rw [h1, h2, h2, usableRows_cons, usableRows_cons, ih]
    | rother =>
      have h1 : cleanRows (RowVal.rother :: rest) = cleanRows rest := by
        simp [cleanRows, List.filter_cons]
      have h2 : convertRows k (RowVal.rother :: rest) = convertRows k rest := by
        simp [convertRows, List.filterMap_cons]
      rw [h1, h2, ih]

/-- Dropping the null and malformed entries key-wise under a blob preserves
the per-key dataframe count and the usable rows of the concatenation. -/
theorem blobDfs_clean (keys : List String) (b : Blob) :
    usableRows ((blobDfs keys (cleanBlob b)).flatten)
      = usableRows ((blobDfs keys b).flatten) ∧
    (blobDfs keys (cleanBlob b)).length = (blobDfs keys b).length := by
  induction keys with
  | nil => exact ⟨rfl, rfl⟩
  | cons k keys ih =>
    cases hbk : b k with
    | none =>
      have hck : cleanBlob b k = none := by simp [cleanBlob, hbk]
      simpa [blobDfs, List.filterMap_cons, hbk, hck] using ih
    | some v =>
      cases v with
      | varr rows =>
        have hck : cleanBlob b k = some (.varr (cleanRows rows)) := by
          simp [cleanBlob, hbk, cleanVal]
        constructor
        · simp only [blobDfs, List.filterMap_cons, hbk, hck, List.flatten_cons,
            usableRows_append]
          rw [usable_convert_clean]
          exact congrArg _ ih.1
        · simpa [blobDfs, List.filterMap_cons, hbk, hck] using ih.2
      | vother =>
        have hck : cleanBlob b k = some .vother := by simp [cleanBlob, hbk, cleanVal]
        simpa [blobDfs, List.filterMap_cons, hbk, hck] using ih

/-- `blobDfs_clean` lifted over an optional located blob. -/
theorem srcDfs_clean (keys : List String) (c : Option BlobSrc) :
    usableRows ((srcDfs keys (cleanSrc c)).flatten)
      = usableRows ((srcDfs keys c).flatten) ∧
    (srcDfs keys (cleanSrc c)).length = (srcDfs keys c).length := by
  cases c with
  | none => exact ⟨rfl, rfl⟩
  | some bs =>
    cases bs with
    | invalid => exact ⟨rfl, rfl⟩
    | parsed b => exact blobDfs_clean keys b

/-- `cleanSrc` does not change whether a blob raises in `json.loads`. -/
theorem srcInvalid_clean (c : Option BlobSrc) :
    srcInvalid (cleanSrc c) = srcInvalid c := by
  cases c with
  | none => rfl
  | some bs => cases bs <;> rfl

/-- The `try` body is insensitive to null and malformed rows. -/
theorem sinaicaExc_clean (c m : Option BlobSrc) :
    sinaicaExc (.page ⟨cleanSrc c, cleanSrc m⟩) = sinaicaExc (.page ⟨c, m⟩) := by
  have hca := srcDfs_clean contKeys c
  have hme := srcDfs_clean meteoKeys m
  simp only [sinaicaExc, srcInvalid_clean]
  by_cases h1 : srcInvalid c = true
  · simp [h1]
  · by_cases h2 : srcInvalid m = true
    · simp [h1, h2]
    · simp only [h1, h2, Bool.false_eq_true, if_false]
      have hemp : (srcDfs contKeys (cleanSrc c) ++ srcDfs meteoKeys (cleanSrc m)).isEmpty
          = (srcDfs contKeys c ++ srcDfs meteoKeys m).isEmpty := by
        rw [Bool.eq_iff_iff]
        simp only [List.isEmpty_iff, List.append_eq_nil]
        rw [← List.length_eq_zero, ← List.length_eq_zero, ← List.length_eq_zero,
          ← List.length_eq_zero, hca.2, hme.2]
      have hpiv : pivotTail ((srcDfs contKeys (cleanSrc c)
            ++ srcDfs meteoKeys (cleanSrc m)).flatten)
          = pivotTail ((srcDfs contKeys c ++ srcDfs meteoKeys m).flatten) := by
        unfold pivotTail
        rw [List.flatten_append, List.flatten_append, usableRows_append,
          usableRows_append, hca.1, hme.1]
      rw [hemp, hpiv]

/-- C8: null rows and malformed (non-object) rows inside a blob's row
sequence never fail the parse and contribute no value: the fetch result
over any page equals the result over the page with those rows dropped;
concretely, a `CO` sequence holding a null and a malformed entry around
one valid row yields exactly the valid row's column. -/
theorem claim_null_rows_skipped :
    (∀ c m : Option BlobSrc,
      get_sinaica_data (.page ⟨cleanSrc c, cleanSrc m⟩) =
        get_sinaica_data (.page ⟨c, m⟩)) ∧
    ((get_sinaica_data (.page ⟨some (.parsed mixedBlob), none⟩)).map
        fun f => f.map fun w => w.cols.map Prod.fst) = some [["CO"]] := by
  constructor
  · intro c m
    unfold get_sinaica_data
    rw [sinaicaExc_clean]
  · rfl

/-- C5: the two blobs are located independently.  If the pollutant blob is
absent while the meteorological blob has usable rows, the fetch succeeds
with one wide row populated only from the meteorological blob's parameters
(and symmetrically); and an `Empty` outcome (no data and no diagnostic)
implies neither located blob had a usable row. -/
theorem claim_blob_independence :
    (∀ mb : Blob, blobUsable meteoKeys mb ≠ [] →
      ∃ w, get_sinaica_data (.page ⟨none, some (.parsed mb)⟩) = some [w] ∧
        ∀ c ∈ w.cols.map Prod.fst,
          ∃ x ∈ blobUsable meteoKeys mb, x.parametro.getD "" = c) ∧
    (∀ cb : Blob, blobUsable contKeys cb ≠ [] →
      ∃ w, get_sinaica_data (.page ⟨some (.parsed cb), none⟩) = some [w] ∧
        ∀ c ∈ w.cols.map Prod.fst,
          ∃ x ∈ blobUsable contKeys cb, x.parametro.getD "" = c) ∧
    (∀ p : Page,
      (get_sinaica_data (.page p) = none ∨ get_sinaica_data (.page p) = some []) →
      sinaicaDiag (.page p) = false →
      (∀ b, p.conts = some (.parsed b) → blobUsable contKeys b = []) ∧
      (∀ b, p.meteo = some (.parsed b) → blobUsable meteoKeys b = [])) := by
  refine ⟨?_, ?_, ?_⟩
  · intro mb h
    have hne : ¬ (blobDfs meteoKeys mb).isEmpty = true := by
      intro he
      rw [List.isEmpty_iff] at he
      exact h (by simp [blobUsable, he, usableRows])
    have hget : get_sinaica_data (.page ⟨none, some (.parsed mb)⟩)
        = some (pivotTailAux (blobUsable meteoKeys mb)) := by
      simp [get_sinaica_data, sinaicaExc, srcInvalid, srcDfs, hne, pivotTail, blobUsable]
    cases hbu : blobUsable meteoKeys mb with
    | nil => exact absurd hbu h
    | cons r rs =>
      obtain ⟨w, hw, hcols⟩ := pivotTailAux_cols r rs
      refine ⟨w, by rw [hget, hbu, hw], ?_⟩
      intro c hc
      rw [hcols] at hc
      obtain ⟨x, hx, hxc⟩ := List.mem_map.mp (mem_of_mem_dedupFrom _ _ hc)
      exact ⟨x, hbu ▸ hx, hxc⟩
  · intro cb h
    have hne : ¬ (blobDfs contKeys cb).isEmpty = true := by
      intro he
      rw [List.isEmpty_iff] at he
      exact h (by simp [blobUsable, he, usableRows])
    have hget : get_sinaica_data (.page ⟨some (.parsed cb), none⟩)
        = some (pivotTailAux (blobUsable contKeys cb)) := by
      simp [get_sinaica_data, sinaicaExc, srcInvalid, srcDfs, hne, pivotTail, blobUsable]
    cases hbu : blobUsable contKeys cb with
    | nil => exact absurd hbu h
    | cons r rs =>
      obtain ⟨w, hw, hcols⟩ := pivotTailAux_cols r rs
      refine ⟨w, by rw [hget, hbu, hw], ?_⟩
      intro c hc
      rw [hcols] at hc
      obtain ⟨x, hx, hxc⟩ := List.mem_map.mp (mem_of_mem_dedupFrom _ _ hc)
      exact ⟨x, hbu ▸ hx, hxc⟩
  · intro p hres hdiag
    by_cases h1 : srcInvalid p.conts = true
    · exfalso; simp [sinaicaDiag, sinaicaExc, h1] at hdiag
    by_cases h2 : srcInvalid p.meteo = true
    · exfalso; simp [sinaicaDiag, sinaicaExc, h1, h2] at hdiag
    by_cases he : (srcDfs contKeys p.conts ++ srcDfs meteoKeys p.meteo).isEmpty = true
    · rw [List.isEmpty_iff] at he
      obtain ⟨hec, hem⟩ := List.append_eq_nil.mp he
      constructor
      · intro b hb
        rw [hb] at hec
        simp only [srcDfs] at hec
        simp [blobUsable, hec, usableRows]
      · intro b hb
        rw [hb] at hem
        simp only [srcDfs] at hem
        simp [blobUsable, hem, usableRows]
    · have hget : get_sinaica_data (.page p)
          = some (pivotTail ((srcDfs contKeys p.conts
              ++ srcDfs meteoKeys p.meteo).flatten)) := by
        simp [get_sinaica_data, sinaicaExc, h1, h2, he]
      rcases hres with h | h
      · rw [hget] at h; cases h
      · rw [hget] at h
        have hnil : pivotTail ((srcDfs contKeys p.conts
            ++ srcDfs meteoKeys p.meteo).flatten) = [] := Option.some.inj h
        rw [pivotTail] at hnil
        have husable := (pivotTailAux_eq_nil_iff _).mp hnil
        rw [List.flatten_append, usableRows_append, List.append_eq_nil] at husable
        constructor
        · intro b hb
          have := husable.1
          rw [hb] at this
          simpa [blobUsable, srcDfs] using this
        · intro b hb
          have := husable.2
          rw [hb] at this
          simpa [blobUsable, srcDfs] using this

/-- Witness for C5: a meteorological blob holding one temperature row
succeeds alone, through the theorem. -/
theorem claim_blob_independence_witness :
    blobUsable meteoKeys tmpBlob ≠ [] ∧
    ∃ w, get_sinaica_data (.page ⟨none, some (.parsed tmpBlob)⟩) = some [w] ∧
      ∀ c ∈ w.cols.map Prod.fst,
        ∃ x ∈ blobUsable meteoKeys tmpBlob, x.parametro.getD "" = c :=
  ⟨by decide, claim_blob_independence.1 tmpBlob (by decide)⟩

end AirQuality
